import Mathlib

/-!
Shallow embedding of `huggingface_bedrock_importer/importer.py`.

The repository's core is a migration pipeline: stage local model files into S3
(`upload_to_s3`), derive a canonical model name (`sanitize_model_id`), decompose
caller-supplied locations (`s3_uri_to_bucket_and_key`), drive a Bedrock
model-import job to completion (`create_bedrock_model`), and tear resources down
(`cleanup_aws_resources`).

Remote AWS calls are modelled as explicit environments (per-call outcome
functions) passed to the embedded functions.  Python strings are Lean `String`s;
`os.path` functions are modelled with their POSIX semantics (the semantics used
for S3 keys), character by character on `String.data`.
-/

set_option autoImplicit false
set_option maxRecDepth 4000

/-! ### `os.path` helpers (POSIX semantics), on `List Char` -/

/-- Python `str.split(sep)` (split on every separator, keeping empty pieces),
for a single-character separator, on char lists. -/
def pySplitChar (sep : Char) : List Char → List (List Char)
  | [] => [[]]
  | c :: cs =>
    if c = sep then [] :: pySplitChar sep cs
    else
      match pySplitChar sep cs with
      | [] => [[c]]
      | p :: ps => (c :: p) :: ps

/-- Python `sep.join(parts)` for a single-character separator. -/
def joinChar (sep : Char) : List (List Char) → List Char
  | [] => []
  | [p] => p
  | p :: q :: ps => p ++ sep :: joinChar sep (q :: ps)

/-- Python `str.split(sep, maxsplit=1)` for a single-character separator. -/
def splitOnceChar (sep : Char) : List Char → List (List Char)
  | [] => [[]]
  | c :: cs =>
    if c = sep then [[], cs]
    else
      match splitOnceChar sep cs with
      | [] => [[c]]
      | p :: ps => (c :: p) :: ps

/-- The component `"."`. -/
def dotC : List Char := ['.']

/-- The component `".."`. -/
def dotdotC : List Char := ['.', '.']

/-- The `initial_slashes` computation of `posixpath.normpath`: `2` for exactly
two leading slashes, `1` for one or three-or-more, `0` otherwise. -/
def initialSlashes : List Char → Nat
  | '/' :: '/' :: '/' :: _ => 1
  | '/' :: '/' :: _ => 2
  | '/' :: _ => 1
  | _ => 0

/-- The component-normalisation loop of `posixpath.normpath`: drop empty and
`"."` components, resolve `".."` lexically (a leading `".."` is kept for
relative paths and dropped under a root slash). -/
def normComps (slashes : Nat) : List (List Char) → List (List Char) → List (List Char)
  | acc, [] => acc
  | acc, comp :: rest =>
    if comp = ([] : List Char) ∨ comp = dotC then
      normComps slashes acc rest
    else if comp ≠ dotdotC ∨ (slashes = 0 ∧ acc = []) ∨ acc.getLast? = some dotdotC then
      normComps slashes (acc ++ [comp]) rest
    else if acc ≠ [] then
      normComps slashes acc.dropLast rest
    else
      normComps slashes acc rest

/-- `posixpath.normpath` on char lists. -/
def normpathChars (l : List Char) : List Char :=
  if l = [] then dotC
  else
    let k := initialSlashes l
    let nc := normComps k [] (pySplitChar '/' l)
    let joined := List.replicate k '/' ++ joinChar '/' nc
    if joined = [] then dotC else joined

/-- `os.path.normpath` (POSIX). -/
def normpath (s : String) : String := ⟨normpathChars s.data⟩

/-- `os.path.join(a, b)` (POSIX) on char lists: `b` wins if absolute, otherwise
it is appended with a separator unless `a` is empty or already ends in one. -/
def pyJoin (a b : List Char) : List Char :=
  match b with
  | '/' :: _ => b
  | _ =>
    if a = [] then b
    else if a.getLast? = some '/' then a ++ b
    else a ++ '/' :: b

/-- Python `s.removeprefix("s3://")`, as used by `s3_uri_to_bucket_and_key`. -/
def stripS3Scheme : List Char → List Char
  | 's' :: '3' :: ':' :: '/' :: '/' :: rest => rest
  | l => l

/-! ### `sanitize_model_id` (importer.py lines 206-216) -/

/-- One character is kept by the regex class `[-a-zA-Z0-9]` of
`sanitize_model_id`. -/
def isAllowedChar (c : Char) : Bool :=
  c == '-' || c.isAlpha || c.isDigit

/-- The per-character action of `re.sub(r'[^-a-zA-Z0-9]', "-", ...)`. -/
def sanitizeChar (c : Char) : Char :=
  if isAllowedChar c then c else '-'

/-- `sanitize_model_id`: replace every character outside `[-a-zA-Z0-9]`
with `-`. -/
def sanitize_model_id (s : String) : String :=
  ⟨s.data.map sanitizeChar⟩

/-! ### `s3_uri_to_bucket_and_key` (importer.py lines 193-203) -/

/-- `s3_uri_to_bucket_and_key`: strip an `s3://` scheme, normalise, and split on
the first `/`.  Like the Python function it returns the raw result of
`str.split(..., maxsplit=1)` - a list of one or two components, not always a
pair. -/
def s3_uri_to_bucket_and_key (s3_uri : String) : List String :=
  (splitOnceChar '/' (normpathChars (stripS3Scheme s3_uri.data))).map fun l => ⟨l⟩

/-- Python tuple unpacking `bucket, key = ...` of the list returned by
`s3_uri_to_bucket_and_key`: succeeds exactly on two-element lists, raises
`ValueError` (here `none`) otherwise. -/
def unpack2 : List String → Option (String × String)
  | [a, b] => some (a, b)
  | _ => none

/-! ### `upload_to_s3` (importer.py lines 70-132)

The local tree walk is abstracted as the list of relative file paths that
`os.walk` yields; the per-file `head_object` probe is an environment function
from `(bucket, key)` to the probe's outcome. -/

/-- Outcome of one `s3_client.head_object` call. -/
inductive ProbeResult where
  /-- The call succeeded: the object exists. -/
  | ok
  /-- The call raised `botocore` `ClientError` carrying this
  `e.response["Error"]["Code"]` string. -/
  | clientError (code : String)
  /-- The call raised an exception that is not a `ClientError` (caught by no
  handler in `upload_to_s3`). -/
  | raised
deriving DecidableEq

/-- Python `int(s)` on an error-code string: an optional sign followed by
digits.  (AWS error codes contain no whitespace or underscores, so those
`int()` forms are not modelled.) -/
def pyInt (s : String) : Option Int :=
  match s.data with
  | [] => none
  | '-' :: rest =>
    match rest with
    | [] => none
    | _ => if rest.all Char.isDigit then some (-(rest.foldl (fun a c => a * 10 + (c.toNat - 48)) 0 : Nat)) else none
  | '+' :: rest =>
    match rest with
    | [] => none
    | _ => if rest.all Char.isDigit then some ((rest.foldl (fun a c => a * 10 + (c.toNat - 48)) 0 : Nat)) else none
  | l => if l.all Char.isDigit then some ((l.foldl (fun a c => a * 10 + (c.toNat - 48)) 0 : Nat)) else none

/-- The `files_to_upload` walk loop of `upload_to_s3`: keep a file when the
probe raises a `ClientError` with code `404`; skip it when the probe succeeds
or the `ClientError` code is another integer; propagate any other failure
(`int()` on a non-integer code raises `ValueError`; non-`ClientError`
exceptions are not caught). -/
def files_to_upload (probe : String → String → ProbeResult) (bucket key : String) :
    List String → Except String (List String)
  | [] => .ok []
  | f :: fs =>
    match probe bucket (key ++ "/" ++ f) with
    | .ok => files_to_upload probe bucket key fs
    | .raised => .error "head_object raised"
    | .clientError code =>
      match pyInt code with
      | none => .error "ValueError: invalid literal for int"
      | some n =>
        if n = 404 then
          match files_to_upload probe bucket key fs with
          | .ok ds => .ok (f :: ds)
          | .error e => .error e
        else files_to_upload probe bucket key fs

/-- The bucket/key decomposition at the top of `upload_to_s3`
(lines 89-91): `s3_uri_to_bucket_and_key(f"{s3_bucket}/models/{model_name}")`
unpacked into two variables. -/
def upload_location_parts (s3_bucket model_name : String) : Option (String × String) :=
  unpack2 (s3_uri_to_bucket_and_key (s3_bucket ++ "/" ++ ("models/" ++ model_name)))

/-- Result of a normal return from `upload_to_s3`. -/
structure StageOk where
  /-- `files_to_upload`: relative paths handed to `fast_upload`. -/
  uploadedRel : List String
  /-- Object keys written by `fast_upload` (`os.path.join(s3_prefix, src)`). -/
  uploadedKeys : List String
  /-- The returned `upload_location` string. -/
  upload_location : String
  /-- Whether `"All model files already uploaded."` was printed (empty delta). -/
  allAlreadyUploaded : Bool
deriving DecidableEq

/-- Overall outcome of `upload_to_s3`: a normal return or a propagated
exception. -/
inductive StageResult where
  | ok (r : StageOk)
  | error (msg : String)
deriving DecidableEq

/-- `upload_to_s3`: decompose the destination, compute the file delta by
probing each walked file, transfer exactly the delta and report the
location. -/
def upload_to_s3 (probe : String → String → ProbeResult) (walkFiles : List String)
    (s3_bucket model_name : String) : StageResult :=
  match upload_location_parts s3_bucket model_name with
  | none => .error "ValueError: not enough values to unpack"
  | some (b, k) =>
    let upload_location := "s3://" ++ b ++ "/" ++ k
    match files_to_upload probe b k walkFiles with
    | .error e => .error e
    | .ok delta =>
      .ok ⟨delta, delta.map (fun f => ⟨pyJoin k.data f.data⟩), upload_location, delta.isEmpty⟩

/-! ### `create_bedrock_model` (importer.py lines 219-283)

The Bedrock client is abstracted as the outcome of the initial
`get_imported_model` lookup plus a function giving the response of the `n`-th
`get_model_import_job` poll (0-indexed). -/

/-- Response of one `get_model_import_job` call, with the fields the code
reads; `none` models an absent dictionary key. -/
structure JobStatusResponse where
  status : String
  failureMessage : Option String
  importedModelArn : Option String
deriving DecidableEq

/-- Outcome of the initial `bedrock.get_imported_model` lookup. -/
inductive LookupResult where
  /-- The model exists; the response carries this `modelArn`. -/
  | found (modelArn : String)
  /-- `ResourceNotFoundException` was raised. -/
  | resourceNotFound
  /-- Any other `botocore` `ClientError` (permission denied, throttling, ...)
  with this error code was raised. -/
  | clientError (code : String)
  /-- An exception that is not a `ClientError` was raised (not caught). -/
  | raised
deriving DecidableEq

/-- Outcome of `create_bedrock_model` as observed by its caller. -/
inductive BedrockResult where
  /-- Normal return with a model ARN. -/
  | ok (modelArn : String)
  /-- `raise Exception(f"Failed to import model: {failureMessage}")`. -/
  | importFailed (msg : String)
  /-- `KeyError`: a response dictionary lacked this key. -/
  | keyError (key : String)
  /-- The initial lookup raised an exception the code does not catch. -/
  | lookupRaised
deriving DecidableEq

/-- A run of `create_bedrock_model`: its outcome, how many
`create_model_import_job` submissions it made, and how many
`get_model_import_job` status checks it performed. -/
structure BedrockRun where
  result : BedrockResult
  jobsSubmitted : Nat
  statusChecks : Nat
deriving DecidableEq

/-- How the polling `while` loop was left. -/
inductive LoopExit where
  /-- `break`: status is no longer `"InProgress"` and there is no
  `failureMessage`; `last` is the final `job_response`. -/
  | broke (checks : Nat) (last : JobStatusResponse)
  /-- The loop raised `Exception(failureMessage)`. -/
  | raisedFailure (checks : Nat) (msg : String)
  /-- The `wait_secs < 3600` ceiling was reached; `last` is the final
  `job_response`. -/
  | exhausted (checks : Nat) (last : JobStatusResponse)
deriving DecidableEq

/-- The polling loop of `create_bedrock_model` (lines 259-278): sleep 10
seconds, check the status, and repeat while `wait_secs < 3600`.  `fuel` is the
number of iterations the ceiling still permits (initially `3600 / 10`), `done`
the number of checks made so far; when the fuel runs out the loop condition
fails and `job_response` still holds the response of the last check made. -/
def pollLoopAux (poll : Nat → JobStatusResponse) : Nat → Nat → LoopExit
  | 0, done => .exhausted done (poll (done - 1))
  | fuel + 1, done =>
    let r := poll done
    if r.status ≠ "InProgress" then
      match r.failureMessage with
      | some m => .raisedFailure (done + 1) m
      | none => .broke (done + 1) r
    else
      pollLoopAux poll fuel (done + 1)

/-- Number of status checks performed before the loop was left. -/
def exitChecks : LoopExit → Nat
  | .broke n _ => n
  | .raisedFailure n _ => n
  | .exhausted n _ => n

/-- `create_bedrock_model`: return the existing model's ARN if the lookup
finds one; otherwise submit an import job and poll it.  After the loop the
code unconditionally reads `job_response["importedModelArn"]`. -/
def create_bedrock_model (lookup : LookupResult) (poll : Nat → JobStatusResponse) :
    BedrockRun :=
  match lookup with
  | .found arn => ⟨.ok arn, 0, 0⟩
  | .raised => ⟨.lookupRaised, 0, 0⟩
  | .resourceNotFound | .clientError _ =>
    match pollLoopAux poll (3600 / 10) 0 with
    | .raisedFailure n m => ⟨.importFailed m, 1, n⟩
    | .broke n r | .exhausted n r =>
      match r.importedModelArn with
      | some a => ⟨.ok a, 1, n⟩
      | none => ⟨.keyError "importedModelArn", 1, n⟩

/-! ### `cleanup_aws_resources` (importer.py lines 309-349)

Each AWS call either succeeds or raises, per the environment below; the
function's observable behaviour is the sequence of AWS calls it makes and the
messages it prints. -/

/-- Whether each teardown AWS call succeeds (`false` = the call raises). -/
structure CleanupEnv where
  delete_role_policy_ok : Bool
  delete_role_ok : Bool
  delete_model_ok : Bool
  delete_objects_ok : Bool
deriving DecidableEq

/-- An AWS call attempted during cleanup. -/
inductive AwsCall where
  /-- `iam.delete_role_policy(...)`. -/
  | deleteRolePolicy
  /-- `iam.delete_role(...)`. -/
  | deleteRole
  /-- `bedrock.delete_custom_model(...)`. -/
  | deleteModel
  /-- `s3.Bucket(bucket).objects.filter(Prefix=p).delete()` with this `p`. -/
  | listAndDeleteObjects (p : String)
deriving DecidableEq

/-- The S3 key root whose objects the third cleanup block deletes
(lines 344-345): `bucket, p = s3_uri_to_bucket_and_key(s3_uri)` then
`os.path.normpath(f"{p}/models/{model_id}")`; `none` when the two-variable
unpacking raises `ValueError`. -/
def cleanup_s3_keyroot (s3_uri model_id : String) : Option String :=
  (unpack2 (s3_uri_to_bucket_and_key s3_uri)).map fun p =>
    normpath (p.2 ++ "/models/" ++ model_id)

/-- `cleanup_aws_resources`: three sequential blocks, each with its own
`try/except` that prints an error message and falls through.  Block 1 deletes
the inline policy then the role (the role call is reached only if the policy
call succeeded); block 2 deletes the Bedrock custom model; block 3 decomposes
the location and deletes the staged objects.  Returns the AWS calls made and
the per-block messages printed. -/
def cleanup_aws_resources (env : CleanupEnv) (s3_uri model_id : String) :
    List AwsCall × List String :=
  let block1 : List AwsCall × List String :=
    if env.delete_role_policy_ok then
      if env.delete_role_ok then
        ([.deleteRolePolicy, .deleteRole], ["Deleted role."])
      else
        ([.deleteRolePolicy, .deleteRole], ["Unable to delete role: e"])
    else
      ([.deleteRolePolicy], ["Unable to delete role: e"])
  let block2 : List AwsCall × List String :=
    if env.delete_model_ok then
      ([.deleteModel], ["Deleted Bedrock custom model."])
    else
      ([.deleteModel], ["Unable to delete Bedrock custom model: e"])
  let block3 : List AwsCall × List String :=
    match cleanup_s3_keyroot s3_uri model_id with
    | none => ([], ["Unable to delete S3 prefix: e"])
    | some p =>
      if env.delete_objects_ok then
        ([.listAndDeleteObjects p], ["Deleted S3 prefix with model files."])
      else
        ([.listAndDeleteObjects p], ["Unable to delete S3 prefix: e"])
  (block1.1 ++ block2.1 ++ block3.1, block1.2 ++ block2.2 ++ block3.2)

/-- The sequence of AWS calls a cleanup run makes. -/
def cleanupTrace (env : CleanupEnv) (s3_uri model_id : String) : List AwsCall :=
  (cleanup_aws_resources env s3_uri model_id).1

/-- The messages a cleanup run prints. -/
def cleanupMsgs (env : CleanupEnv) (s3_uri model_id : String) : List String :=
  (cleanup_aws_resources env s3_uri model_id).2

/-! ### `import_model_to_bedrock` (importer.py lines 381-409)

The orchestrator; the Hugging Face download and the IAM role provisioning are
external collaborators irrelevant to the claims and are omitted.  What matters
here is the naming wiring: staging uses `sanitize_model_id(model_id)` as the
model name. -/

/-- `import_model_to_bedrock`: derive the canonical name, stage to S3, then
create the Bedrock model.  The Bedrock step runs only if staging returned
normally. -/
def import_model_to_bedrock (probe : String → String → ProbeResult)
    (walkFiles : List String) (lookup : LookupResult)
    (poll : Nat → JobStatusResponse) (model_id s3_bucket : String) :
    StageResult × Option BedrockRun :=
  let model_name := sanitize_model_id model_id
  match upload_to_s3 probe walkFiles s3_bucket model_name with
  | .error e => (.error e, none)
  | .ok r => (.ok r, some (create_bedrock_model lookup poll))

/-- Key root under which staging writes, for a given destination and artifact
identifier, following the orchestrator's wiring (staging uses the sanitized
identifier). -/
def stagedKeyRoot (s3_bucket model_id : String) : Option String :=
  (upload_location_parts s3_bucket (sanitize_model_id model_id)).map fun p => p.2

/-- S3 prefix-filter semantics: an object key falls under a prefix when the
prefix is a leading run of the key's characters. -/
def keyUnder : List Char → List Char → Bool
  | [], _ => true
  | _ :: _, [] => false
  | a :: as, b :: bs => a == b && keyUnder as bs

/-- A probe environment that reports every object as missing (HTTP 404). -/
def probe404 : String → String → ProbeResult := fun _ _ => .clientError "404"

/-- A probe environment that answers 403 (permission denied) for the key
`models/m/a` and 404 for everything else. -/
def c1Probe : String → String → ProbeResult := fun _ key =>
  if key = "models/m/a" then .clientError "403" else .clientError "404"

/-- A poll environment that always reports `"InProgress"` (with or without an
`importedModelArn` field in the response). -/
def pollStuck (arn : Option String) : Nat → JobStatusResponse :=
  fun _ => ⟨"InProgress", none, arn⟩

/-- A poll environment realising the status sequence
`[InProgress, InProgress, Complete]`. -/
def seq3Poll : Nat → JobStatusResponse := fun n =>
  if n < 2 then ⟨"InProgress", none, none⟩
  else ⟨"Complete", none, some "arn:aws:bedrock:eu-west-1:123456789012:imported-model/seq3"⟩

/-- A poll environment whose first status check already reports completion. -/
def pollDone : Nat → JobStatusResponse :=
  fun _ => ⟨"Complete", none, some "arn:aws:bedrock:eu-west-1:123456789012:imported-model/c9"⟩

/-! ## Supporting lemmas -/

/-- `sanitizeChar` is idempotent: its output is always in `[-a-zA-Z0-9]`. -/
theorem sanitizeChar_idem (c : Char) : sanitizeChar (sanitizeChar c) = sanitizeChar c := by
  by_cases h : isAllowedChar c = true
  · simp [sanitizeChar, h]
  · simp [sanitizeChar, h]

/-- Mapping `sanitizeChar` twice is the same as mapping it once. -/
theorem map_sanitizeChar_idem (l : List Char) :
    (l.map sanitizeChar).map sanitizeChar = l.map sanitizeChar := by
  induction l with
  | nil => rfl
  | cons c cs ih => simp [List.map, ih, sanitizeChar_idem]

/-- The walk loop keeps no file when every probe reports the object present. -/
theorem files_to_upload_all_ok (probe : String → String → ProbeResult) (b k : String) :
    ∀ files, (∀ f ∈ files, probe b (k ++ "/" ++ f) = .ok) →
      files_to_upload probe b k files = .ok [] := by
  intro files
  induction files with
  | nil => intro _; rfl
  | cons f fs ih =>
    intro hall
    have hp := hall f (List.mem_cons_self f fs)
    have hfs := ih fun g hg => hall g (List.mem_cons_of_mem f hg)
    simp [files_to_upload, hp, hfs]

/-- The polling loop performs at most `done + fuel` status checks. -/
theorem pollLoopAux_checks_le (poll : Nat → JobStatusResponse) :
    ∀ fuel done, exitChecks (pollLoopAux poll fuel done) ≤ done + fuel := by
  intro fuel
  induction fuel with
  | zero => intro done; simp [pollLoopAux, exitChecks]
  | succ n ih =>
    intro done
    simp only [pollLoopAux]
    split
    · split <;> simp [exitChecks]
    · have := ih (done + 1)
      omega

/-- Once the existence check falls through (not-found or any client error),
`create_bedrock_model` polls with the loop, submits exactly one job, and never
reports the lookup as having raised. -/
theorem create_bedrock_model_after_pass (lookup : LookupResult)
    (poll : Nat → JobStatusResponse)
    (h : lookup = LookupResult.resourceNotFound ∨ ∃ c, lookup = .clientError c) :
    (create_bedrock_model lookup poll).statusChecks
        = exitChecks (pollLoopAux poll (3600 / 10) 0) ∧
    (create_bedrock_model lookup poll).jobsSubmitted = 1 ∧
    (create_bedrock_model lookup poll).result ≠ .lookupRaised := by
  obtain rfl | ⟨c, rfl⟩ := h <;>
  · unfold create_bedrock_model
    cases hp : pollLoopAux poll (3600 / 10) 0 with
    | broke n r => rcases r with ⟨st, fm, arn⟩; cases arn <;> simp [exitChecks]
    | raisedFailure n m => simp [exitChecks]
    | exhausted n r => rcases r with ⟨st, fm, arn⟩; cases arn <;> simp [exitChecks]

/-- `create_bedrock_model` never checks status more than `3600 / 10` times. -/
theorem create_bedrock_model_checks_le (lookup : LookupResult)
    (poll : Nat → JobStatusResponse) :
    (create_bedrock_model lookup poll).statusChecks ≤ 3600 / 10 := by
  cases lookup with
  | found a => simp [create_bedrock_model]
  | raised => simp [create_bedrock_model]
  | resourceNotFound =>
    rw [(create_bedrock_model_after_pass _ poll (.inl rfl)).1]
    simpa using pollLoopAux_checks_le poll (3600 / 10) 0
  | clientError c =>
    rw [(create_bedrock_model_after_pass _ poll (.inr ⟨c, rfl⟩)).1]
    simpa using pollLoopAux_checks_le poll (3600 / 10) 0

/-- `splitOnceChar` returns one or two pieces. -/
theorem splitOnceChar_length (sep : Char) :
    ∀ l, (splitOnceChar sep l).length = 1 ∨ (splitOnceChar sep l).length = 2 := by
  intro l
  induction l with
  | nil => left; rfl
  | cons c cs ih =>
    unfold splitOnceChar
    by_cases h : c = sep
    · simp [h]
    · simp only [h, if_false]
      cases hs : splitOnceChar sep cs with
      | nil => simp
      | cons p ps =>
        rw [hs] at ih
        simp only [List.length_cons] at ih ⊢
        omega

/-! ### Lemmas about `pySplitChar`, `joinChar` and `normpathChars`

The key fact behind claim C9 is that `posixpath.normpath` never lengthens a
non-empty path, and that a path whose normal form has the same length is
already normal.  `pathCost` counts each component plus one separator, so that
a non-empty component list `cs` satisfies
`(joinChar sep cs).length + 1 = pathCost cs`. -/

/-- Unfolding `joinChar` over the head character of the first component. -/
theorem joinChar_cons (sep c : Char) (p : List Char) (ps : List (List Char)) :
    joinChar sep ((c :: p) :: ps) = c :: joinChar sep (p :: ps) := by
  cases ps with
  | nil => rfl
  | cons q qs => rfl

/-- `pySplitChar` never returns the empty list of components. -/
theorem pySplitChar_ne_nil (sep : Char) (l : List Char) : pySplitChar sep l ≠ [] := by
  cases l with
  | nil => simp [pySplitChar]
  | cons c cs =>
    unfold pySplitChar
    by_cases h : c = sep
    · simp [h]
    · simp only [h, if_false]
      cases pySplitChar sep cs <;> simp

/-- Joining the pieces of a split restores the original list. -/
theorem joinChar_pySplitChar (sep : Char) : ∀ l, joinChar sep (pySplitChar sep l) = l := by
  intro l
  induction l with
  | nil => rfl
  | cons c cs ih =>
    unfold pySplitChar
    by_cases h : c = sep
    · subst h
      simp only [if_pos rfl]
      cases hs : pySplitChar c cs with
      | nil => exact absurd hs (pySplitChar_ne_nil c cs)
      | cons p ps =>
        show joinChar c ([] :: p :: ps) = c :: cs
        rw [show joinChar c ([] :: p :: ps) = c :: joinChar c (p :: ps) from rfl, ← hs, ih]
    · simp only [h, if_false]
      cases hs : pySplitChar sep cs with
      | nil => exact absurd hs (pySplitChar_ne_nil sep cs)
      | cons p ps => rw [joinChar_cons, ← hs, ih]

/-- Total size of a component list: each component plus one separator. -/
def pathCost : List (List Char) → Nat
  | [] => 0
  | p :: ps => p.length + 1 + pathCost ps

theorem pathCost_cons (p : List Char) (ps : List (List Char)) :
    pathCost (p :: ps) = p.length + 1 + pathCost ps := rfl

theorem pathCost_append (a b : List (List Char)) :
    pathCost (a ++ b) = pathCost a + pathCost b := by
  induction a with
  | nil => simp [pathCost]
  | cons p ps ih => simp [pathCost, ih]; omega

/-- Length of a join of a non-empty component list, in terms of `pathCost`. -/
theorem joinChar_length (sep : Char) :
    ∀ ps p, (joinChar sep (p :: ps)).length + 1 = pathCost (p :: ps) := by
  intro ps
  induction ps with
  | nil => intro p; simp [joinChar, pathCost]
  | cons q qs ih =>
    intro p
    show (p ++ sep :: joinChar sep (q :: qs)).length + 1 = _
    have := ih q
    rw [List.length_append, pathCost_cons]
    simp only [List.length_cons]
    omega

/-- The normalisation fold never increases `pathCost`, and preserves it only
when it changes nothing. -/
theorem normComps_cost (k : Nat) :
    ∀ (cs acc : List (List Char)),
      pathCost (normComps k acc cs) ≤ pathCost acc + pathCost cs ∧
      (pathCost (normComps k acc cs) = pathCost acc + pathCost cs →
        normComps k acc cs = acc ++ cs) := by
  intro cs
  induction cs with
  | nil => intro acc; simp [normComps]
  | cons c cs ih =>
    intro acc
    unfold normComps
    by_cases h1 : c = ([] : List Char) ∨ c = dotC
    · rw [if_pos h1]
      have hc1 : c.length + 1 ≥ 1 := by omega
      obtain ⟨hle, _⟩ := ih acc
      rw [pathCost_cons]
      exact ⟨by omega, fun heq => absurd heq (by omega)⟩
    · rw [if_neg h1]
      by_cases h2 : c ≠ dotdotC ∨ (k = 0 ∧ acc = []) ∨ acc.getLast? = some dotdotC
      · rw [if_pos h2]
        obtain ⟨hle, heqc⟩ := ih (acc ++ [c])
        rw [pathCost_append] at hle
        rw [pathCost_cons]
        simp only [pathCost] at hle
        constructor
        · omega
        · intro heq
          have h3 : pathCost (normComps k (acc ++ [c]) cs)
              = pathCost (acc ++ [c]) + pathCost cs := by
            rw [pathCost_append]; simp only [pathCost]; omega
          rw [heqc h3, List.append_assoc]
          rfl
      · rw [if_neg h2]
        by_cases h3 : acc ≠ []
        · rw [if_pos h3]
          obtain ⟨ys, y, hacc⟩ := (List.eq_nil_or_concat acc).resolve_left h3
          rw [List.concat_eq_append] at hacc
          subst hacc
          obtain ⟨hle, _⟩ := ih (ys ++ [y]).dropLast
          rw [List.dropLast_concat] at hle
          rw [List.dropLast_concat, pathCost_append, pathCost_cons]
          simp only [pathCost]
          exact ⟨by omega, fun heq => absurd heq (by omega)⟩
        · rw [if_neg h3]
          obtain ⟨hle, _⟩ := ih acc
          rw [pathCost_cons]
          exact ⟨by omega, fun heq => absurd heq (by omega)⟩

/-- Every component kept by the normalisation fold either was already
accumulated or is a non-empty, non-`"."` input component. -/
theorem normComps_mem (k : Nat) :
    ∀ (cs acc : List (List Char)) (x : List Char), x ∈ normComps k acc cs →
      x ∈ acc ∨ (x ∈ cs ∧ x ≠ [] ∧ x ≠ dotC) := by
  intro cs
  induction cs with
  | nil => intro acc x hx; left; simpa [normComps] using hx
  | cons c cs ih =>
    intro acc x hx
    unfold normComps at hx
    by_cases h1 : c = ([] : List Char) ∨ c = dotC
    · rw [if_pos h1] at hx
      rcases ih acc x hx with h | ⟨h, hne⟩
      · exact .inl h
      · exact .inr ⟨List.mem_cons_of_mem _ h, hne⟩
    · rw [if_neg h1] at hx
      push_neg at h1
      by_cases h2 : c ≠ dotdotC ∨ (k = 0 ∧ acc = []) ∨ acc.getLast? = some dotdotC
      · rw [if_pos h2] at hx
        rcases ih _ x hx with h | ⟨h, hne⟩
        · rcases List.mem_append.1 h with h | h
          · exact .inl h
          · right
            have hx' : x = c := by simpa using h
            subst hx'
            exact ⟨List.mem_cons_self x cs, h1.1, h1.2⟩
        · exact .inr ⟨List.mem_cons_of_mem _ h, hne⟩
      · rw [if_neg h2] at hx
        by_cases h3 : acc ≠ []
        · rw [if_pos h3] at hx
          rcases ih _ x hx with h | ⟨h, hne⟩
          · exact .inl ((List.dropLast_sublist acc).subset h)
          · exact .inr ⟨List.mem_cons_of_mem _ h, hne⟩
        · rw [if_neg h3] at hx
          rcases ih acc x hx with h | ⟨h, hne⟩
          · exact .inl h
          · exact .inr ⟨List.mem_cons_of_mem _ h, hne⟩

/-- For a non-empty relative path (no leading slash), `normpath` never
increases the length, and a length-preserving normalisation is the
identity. -/
theorem normpathChars_le (l : List Char) (h0 : l ≠ []) (hs : initialSlashes l = 0) :
    (normpathChars l).length ≤ l.length ∧
    ((normpathChars l).length = l.length → normpathChars l = l) := by
  have hjoin : joinChar '/' (pySplitChar '/' l) = l := joinChar_pySplitChar '/' l
  have hcompsne : pySplitChar '/' l ≠ [] := pySplitChar_ne_nil '/' l
  obtain ⟨c0, cs0, hc⟩ := List.exists_cons_of_ne_nil hcompsne
  have hlen : l.length + 1 = pathCost (pySplitChar '/' l) := by
    conv_lhs => rw [← hjoin]
    rw [hc]
    exact joinChar_length '/' cs0 c0
  obtain ⟨hcost, hcosteq⟩ := normComps_cost 0 (pySplitChar '/' l) []
  simp only [pathCost, Nat.zero_add] at hcost hcosteq
  simp only [normpathChars, if_neg h0, hs, List.replicate, List.nil_append]
  cases hnc : normComps 0 [] (pySplitChar '/' l) with
  | nil =>
    simp only [joinChar, if_pos rfl]
    constructor
    · show dotC.length ≤ l.length
      have : 0 < l.length := List.length_pos.2 h0
      simp only [dotC, List.length_singleton]
      omega
    · intro h1
      have h1' : l.length = 1 := by
        simpa [dotC] using h1.symm
      obtain ⟨ch, hl⟩ := List.length_eq_one.1 h1'
      subst hl
      have hch : ch ≠ '/' := by
        intro h; subst h
        exact absurd hs (by decide)
      have hsplit : pySplitChar '/' [ch] = [[ch]] := by
        simp [pySplitChar, hch]
      rw [hsplit] at hnc
      by_cases hdot : ch = '.'
      · subst hdot; rfl
      · exfalso
        have hcomp : normComps 0 [] [[ch]] = [[ch]] := by
          simp [normComps, dotC, dotdotC, hdot]
        rw [hcomp] at hnc
        exact absurd hnc (by simp)
  | cons q qs =>
    have hqne : q ≠ [] := by
      have hmem := normComps_mem 0 (pySplitChar '/' l) [] q
        (hnc ▸ List.mem_cons_self q qs)
      rcases hmem with h | ⟨_, hne, _⟩
      · simp at h
      · exact hne
    have hjne : joinChar '/' (q :: qs) ≠ [] := by
      cases qs with
      | nil => simpa [joinChar] using hqne
      | cons r rs =>
        show q ++ '/' :: joinChar '/' (r :: rs) ≠ []
        simp
    rw [if_neg hjne]
    rw [hnc] at hcost hcosteq
    have hjlen : (joinChar '/' (q :: qs)).length + 1 = pathCost (q :: qs) :=
      joinChar_length '/' qs q
    constructor
    · omega
    · intro heq
      have h2 : q :: qs = [] ++ pySplitChar '/' l := hcosteq (by omega)
      rw [List.nil_append] at h2
      rw [h2]
      exact hjoin

/-- String concatenation concatenates the underlying character data. -/
theorem data_append (a b : String) : (a ++ b).data = a.data ++ b.data := by
  cases a; cases b; rfl

/-- Splitting a list without the separator yields a single component. -/
theorem pySplitChar_of_not_mem (sep : Char) :
    ∀ l, sep ∉ l → pySplitChar sep l = [l] := by
  intro l
  induction l with
  | nil => intro _; rfl
  | cons c cs ih =>
    intro h
    have hc : ¬c = sep := fun e => h (e ▸ List.mem_cons_self c cs)
    have hcs : sep ∉ cs := fun m => h (List.mem_cons_of_mem c m)
    simp [pySplitChar, hc, ih hcs]

/-- Splitting through the first separator after a separator-free head. -/
theorem pySplitChar_append (sep : Char) :
    ∀ x y, sep ∉ x → pySplitChar sep (x ++ sep :: y) = x :: pySplitChar sep y := by
  intro x
  induction x with
  | nil => intro y _; simp [pySplitChar]
  | cons c cs ih =>
    intro y h
    have hc : ¬c = sep := fun e => h (e ▸ List.mem_cons_self c cs)
    have hcs : sep ∉ cs := fun m => h (List.mem_cons_of_mem c m)
    simp [pySplitChar, hc, ih y hcs]

/-- `maxsplit=1` splitting of a separator-free head followed by a separator. -/
theorem splitOnceChar_append (sep : Char) :
    ∀ x y, sep ∉ x → splitOnceChar sep (x ++ sep :: y) = [x, y] := by
  intro x
  induction x with
  | nil => intro y _; simp [splitOnceChar]
  | cons c cs ih =>
    intro y h
    have hc : ¬c = sep := fun e => h (e ▸ List.mem_cons_self c cs)
    have hcs : sep ∉ cs := fun m => h (List.mem_cons_of_mem c m)
    simp [splitOnceChar, hc, ih y hcs]

/-- The normalisation fold is the identity on clean component lists (no empty,
`"."` or `".."` components). -/
theorem normComps_clean (k : Nat) :
    ∀ cs acc, (∀ c ∈ cs, c ≠ [] ∧ c ≠ dotC ∧ c ≠ dotdotC) →
      normComps k acc cs = acc ++ cs := by
  intro cs
  induction cs with
  | nil => intro acc _; simp [normComps]
  | cons c cs ih =>
    intro acc h
    have hc := h c (List.mem_cons_self c cs)
    unfold normComps
    rw [if_neg (by push_neg; exact ⟨hc.1, hc.2.1⟩), if_pos (Or.inl hc.2.2),
      ih (acc ++ [c]) fun d hd => h d (List.mem_cons_of_mem c hd), List.append_assoc]
    rfl

/-- `normpath` is the identity on non-empty relative paths whose components
are all clean. -/
theorem normpathChars_clean (l : List Char) (h0 : l ≠ []) (hs : initialSlashes l = 0)
    (h : ∀ c ∈ pySplitChar '/' l, c ≠ [] ∧ c ≠ dotC ∧ c ≠ dotdotC) :
    normpathChars l = l := by
  simp only [normpathChars, if_neg h0, hs, List.replicate, List.nil_append]
  rw [normComps_clean 0 _ [] h, List.nil_append, joinChar_pySplitChar, if_neg h0]

/-- Two strings with equal character data are equal. -/
theorem string_data_ext {a b : String} (h : a.data = b.data) : a = b := by
  cases a; cases b; exact congrArg String.mk h

/-- The output characters of `sanitizeChar` are always in `[-a-zA-Z0-9]`. -/
theorem isAllowedChar_sanitizeChar (c : Char) : isAllowedChar (sanitizeChar c) = true := by
  unfold sanitizeChar
  by_cases h : isAllowedChar c = true
  · simp [h]
  · simp only [h, if_false, Bool.false_eq_true]
    decide

/-- Characters in `[-a-zA-Z0-9]` are neither `/` nor `.`. -/
theorem allowedChar_ne {c : Char} (h : isAllowedChar c = true) : c ≠ '/' ∧ c ≠ '.' := by
  refine ⟨fun e => ?_, fun e => ?_⟩ <;> subst e <;> exact absurd h (by decide)

/-- A list fixed by `sanitizeChar`-mapping consists of allowed characters. -/
theorem map_sanitizeChar_fixed :
    ∀ l : List Char, l.map sanitizeChar = l → ∀ c ∈ l, isAllowedChar c = true := by
  intro l
  induction l with
  | nil => intro _ c hc; cases hc
  | cons d ds ih =>
    intro h c hc
    rw [List.map_cons] at h
    injection h with h1 h2
    rcases List.mem_cons.1 hc with rfl | hc
    · rw [← h1]; exact isAllowedChar_sanitizeChar _
    · exact ih h2 c hc

/-- Sanitized identifier data: every character allowed, hence no `/` and not a
dot component. -/
theorem sanitized_clean (l : List Char) (hall : ∀ c ∈ l, isAllowedChar c = true) :
    '/' ∉ l ∧ l ≠ dotC ∧ l ≠ dotdotC := by
  refine ⟨fun h => ?_, fun h => ?_, fun h => ?_⟩
  · exact (allowedChar_ne (hall '/' h)).1 rfl
  · subst h
    exact (allowedChar_ne (hall '.' (List.mem_cons_self _ _))).2 rfl
  · subst h
    exact (allowedChar_ne (hall '.' (List.mem_cons_self _ _))).2 rfl

/-- Where staging writes for destination `my-bucket/pre`: decomposing the
upload location of `upload_to_s3` for the sanitized identifier yields the key
root `pre/models/<sanitize_model_id id>`. -/
theorem stagedKeyRoot_eq (id : String) (hid : id ≠ "") :
    stagedKeyRoot "my-bucket/pre" id = some ("pre/models/" ++ sanitize_model_id id) := by
  have hdne : id.data ≠ [] := fun h => hid (string_data_ext h)
  have hall : ∀ c ∈ (sanitize_model_id id).data, isAllowedChar c = true := by
    intro c hc
    obtain ⟨d, _, rfl⟩ := List.mem_map.1 hc
    exact isAllowedChar_sanitizeChar d
  obtain ⟨hslash, hnd, hndd⟩ := sanitized_clean _ hall
  have hsne : (sanitize_model_id id).data ≠ [] := by
    show id.data.map sanitizeChar ≠ []
    simpa using hdne
  have harg : ("my-bucket/pre" ++ "/" ++ ("models/" ++ sanitize_model_id id) : String)
      = "my-bucket/pre/models/" ++ sanitize_model_id id := by
    apply string_data_ext
    simp [data_append, List.append_assoc]
  have hshape : ("my-bucket/pre/models/" ++ sanitize_model_id id).data
      = "my-bucket".data ++ '/' ::
          ("pre".data ++ '/' :: ("models".data ++ '/' :: (sanitize_model_id id).data)) := by
    simp [data_append, List.append_assoc]
  have hsplit : pySplitChar '/' ("my-bucket/pre/models/" ++ sanitize_model_id id).data
      = ["my-bucket".data, "pre".data, "models".data, (sanitize_model_id id).data] := by
    rw [hshape, pySplitChar_append '/' _ _ (by decide), pySplitChar_append '/' _ _ (by decide),
      pySplitChar_append '/' _ _ (by decide), pySplitChar_of_not_mem '/' _ hslash]
  have hne0 : ("my-bucket/pre/models/" ++ sanitize_model_id id).data ≠ [] := by
    rw [hshape]; simp
  have hnorm : normpathChars ("my-bucket/pre/models/" ++ sanitize_model_id id).data
      = ("my-bucket/pre/models/" ++ sanitize_model_id id).data := by
    apply normpathChars_clean _ hne0
    · rw [data_append]; rfl
    · rw [hsplit]
      intro c hc
      simp only [List.mem_cons, List.not_mem_nil, or_false] at hc
      rcases hc with rfl | rfl | rfl | rfl
      · exact ⟨by decide, by decide, by decide⟩
      · exact ⟨by decide, by decide, by decide⟩
      · exact ⟨by decide, by decide, by decide⟩
      · exact ⟨hsne, hnd, hndd⟩
  unfold stagedKeyRoot upload_location_parts
  rw [harg]
  unfold s3_uri_to_bucket_and_key
  rw [show stripS3Scheme ("my-bucket/pre/models/" ++ sanitize_model_id id).data
      = ("my-bucket/pre/models/" ++ sanitize_model_id id).data from by rw [data_append]; rfl]
  rw [hnorm, hshape, splitOnceChar_append '/' _ _ (by decide)]
  simp only [List.map_cons, List.map_nil, unpack2, Option.map_some']
  rfl

/-- The S3 key root that cleanup deletes for destination `my-bucket/pre`. -/
theorem cleanup_keyroot_eq (id : String) :
    cleanup_s3_keyroot "my-bucket/pre" id = some (normpath ("pre/models/" ++ id)) := by
  unfold cleanup_s3_keyroot
  rw [show unpack2 (s3_uri_to_bucket_and_key "my-bucket/pre")
      = some ("my-bucket", "pre") from by decide]
  simp only [Option.map_some']
  rfl

/-! ## Claims -/

/-- C1 counterexample: a per-file probe failure that is a 403 client error
(permission denied) is silently swallowed by `upload_to_s3`: the file is
treated as already existing, skipped, and the call returns normally instead of
propagating a fatal error. -/
theorem c1_probe_403_silently_skipped :
    upload_to_s3 (fun _ _ => .clientError "403") ["config.json"] "my-bucket" "m"
      = .ok ⟨[], [], "s3://my-bucket/models/m", true⟩ := by decide

/-- C1 amended: if the per-file probe fails with a `ClientError` whose code is
an integer other than 404, `upload_to_s3` silently treats the file as already
existing and skips it (the run is identical to one without that file); only a
probe failure that is not a `ClientError` propagates as a fatal error. -/
theorem c1_amended_probe_errors (probe : String → String → ProbeResult)
    (s3_bucket model_name b k f : String) (files : List String)
    (hbk : upload_location_parts s3_bucket model_name = some (b, k)) :
    ((∃ c n, probe b (k ++ "/" ++ f) = .clientError c ∧ pyInt c = some n ∧ n ≠ 404) →
        upload_to_s3 probe (f :: files) s3_bucket model_name
          = upload_to_s3 probe files s3_bucket model_name) ∧
    (probe b (k ++ "/" ++ f) = .raised →
        upload_to_s3 probe (f :: files) s3_bucket model_name
          = .error "head_object raised") := by
  constructor
  · rintro ⟨c, n, hp, hi, hn⟩
    have hstep : files_to_upload probe b k (f :: files) = files_to_upload probe b k files := by
      simp [files_to_upload, hp, hi, hn]
    simp [upload_to_s3, hbk, hstep]
  · intro hp
    have hstep : files_to_upload probe b k (f :: files) = .error "head_object raised" := by
      simp [files_to_upload, hp]
    simp [upload_to_s3, hbk, hstep]

/-- C1 witness: with a probe answering 403 for `models/m/a` and 404 otherwise,
staging `["a", "b"]` is identical to staging `["b"]` alone. -/
theorem c1_amended_witness :
    upload_to_s3 c1Probe ["a", "b"] "my-bucket" "m"
      = upload_to_s3 c1Probe ["b"] "my-bucket" "m" :=
  (c1_amended_probe_errors c1Probe "my-bucket" "m" "my-bucket" "models/m" "a" ["b"]
    (by decide)).1 ⟨"403", 403, by decide, by decide, by decide⟩

/-- C2 (code bug): when every status check up to the 3600-second ceiling
reports `"InProgress"`, `create_bedrock_model` raises no timeout error at all:
it leaves the loop after 360 checks and blindly reads
`job_response["importedModelArn"]`, yielding a bogus normal return when the
field is present and a bare `KeyError` when it is absent - neither is a
distinguishable timeout failure. -/
theorem c2_timeout_no_distinct_error :
    create_bedrock_model .resourceNotFound (pollStuck (some "arn:aws:imported-model/x"))
      = ⟨.ok "arn:aws:imported-model/x", 1, 360⟩ ∧
    create_bedrock_model .resourceNotFound (pollStuck none)
      = ⟨.keyError "importedModelArn", 1, 360⟩ :=
  ⟨by decide, by decide⟩

/-- C3: the polling loop checks every 10 seconds against a 3600-second
ceiling: on the status sequence `[InProgress, InProgress, Complete]` it
performs exactly 3 checks and returns the imported model's ARN; on every
status sequence it performs at most `3600 / 10 = 360` checks, so it always
terminates. -/
theorem c3_polling_fixed_interval_bounded :
    (create_bedrock_model .resourceNotFound seq3Poll).statusChecks = 3 ∧
    (create_bedrock_model .resourceNotFound seq3Poll).result
      = .ok "arn:aws:bedrock:eu-west-1:123456789012:imported-model/seq3" ∧
    ∀ (lookup : LookupResult) (poll : Nat → JobStatusResponse),
      (create_bedrock_model lookup poll).statusChecks ≤ 3600 / 10 :=
  ⟨by decide, by decide, fun lookup poll => create_bedrock_model_checks_le lookup poll⟩

/-- C4: when every per-file probe reports the object as present, staging
transfers nothing, reports that everything is already uploaded, and returns
the same canonical location string any successful run with this destination
returns. -/
theorem c4_staging_idempotent (probe : String → String → ProbeResult)
    (files : List String) (s3_bucket model_name b k : String)
    (hbk : upload_location_parts s3_bucket model_name = some (b, k))
    (hall : ∀ f ∈ files, probe b (k ++ "/" ++ f) = .ok) :
    upload_to_s3 probe files s3_bucket model_name
      = .ok ⟨[], [], "s3://" ++ b ++ "/" ++ k, true⟩ ∧
    ∀ (probe2 : String → String → ProbeResult) (files2 : List String) (r : StageOk),
      upload_to_s3 probe2 files2 s3_bucket model_name = .ok r →
      r.upload_location = "s3://" ++ b ++ "/" ++ k := by
  constructor
  · have hdelta := files_to_upload_all_ok probe b k files hall
    simp [upload_to_s3, hbk, hdelta]
  · intro probe2 files2 r hr
    simp only [upload_to_s3, hbk] at hr
    cases hd : files_to_upload probe2 b k files2 with
    | error e => rw [hd] at hr; simp at hr
    | ok delta =>
      rw [hd] at hr
      cases hr
      rfl

/-- C4 witness: an all-present probe over two files stages nothing and returns
the canonical location. -/
theorem c4_witness :
    upload_to_s3 (fun _ _ => ProbeResult.ok) ["config.json", "model.safetensors"]
        "my-bucket" "m"
      = .ok ⟨[], [], "s3://my-bucket/models/m", true⟩ :=
  (c4_staging_idempotent (fun _ _ => .ok) ["config.json", "model.safetensors"]
    "my-bucket" "m" "my-bucket" "models/m" (by decide) (fun _ _ => rfl)).1

/-- C5: when the destination-model lookup finds an existing model,
`create_bedrock_model` returns its ARN and submits zero import jobs. -/
theorem c5_existing_model_short_circuit :
    ∀ (arn : String) (poll : Nat → JobStatusResponse),
      create_bedrock_model (.found arn) poll = ⟨.ok arn, 0, 0⟩ :=
  fun _ _ => rfl

/-- C6: `sanitize_model_id` is a pure function replacing every character
outside `[-a-zA-Z0-9]` with `-`; it maps the example identifier as the spec
states and is idempotent. -/
theorem c6_sanitize_pure_idempotent :
    sanitize_model_id "deepseek-ai/DeepSeek-R1-Distill-Llama-8B"
      = "deepseek-ai-DeepSeek-R1-Distill-Llama-8B" ∧
    (∀ s : String, sanitize_model_id (sanitize_model_id s) = sanitize_model_id s) ∧
    (∀ s : String, (sanitize_model_id s).data = s.data.map sanitizeChar) :=
  ⟨by decide, fun s => congrArg String.mk (map_sanitizeChar_idem s.data), fun _ => rfl⟩

/-- C7 counterexample: the caller-supplied location `"s3:///key"` decomposes
silently into the empty bucket and key `"key"`: no hard error is raised and
the bucket is empty, contrary to the claim. -/
theorem c7_counterexample_empty_bucket :
    s3_uri_to_bucket_and_key "s3:///key" = ["", "key"] ∧
    unpack2 (s3_uri_to_bucket_and_key "s3:///key") = some ("", "key") :=
  ⟨by decide, by decide⟩

/-- C7 amended: the decomposition always yields one or two components; inputs
with no key component (the empty string, a bare bucket) yield a single
component, so the two-variable unpacking at every call site raises a hard
`ValueError` rather than silently defaulting a key - but the bucket is not
guaranteed non-empty: `"s3:///key"` silently yields bucket `""`. -/
theorem c7_amended_decomposition :
    (∀ s : String, (s3_uri_to_bucket_and_key s).length = 1 ∨
        (s3_uri_to_bucket_and_key s).length = 2) ∧
    s3_uri_to_bucket_and_key "" = ["."] ∧
    unpack2 (s3_uri_to_bucket_and_key "") = none ∧
    unpack2 (s3_uri_to_bucket_and_key "my-bucket") = none ∧
    s3_uri_to_bucket_and_key "s3:///key" = ["", "key"] := by
  refine ⟨?_, by decide, by decide, by decide, by decide⟩
  intro s
  unfold s3_uri_to_bucket_and_key
  rw [List.length_map]
  exact splitOnceChar_length '/' _

/-- C8: cleanup always attempts all three teardown blocks regardless of which
actions fail - the model deletion and the object deletion are always reached
(the object-level AWS call is made whenever the location string unpacks), one
outcome message is reported per block, and in the role-missing scenario the
remaining actions still succeed. -/
theorem c8_cleanup_independent_best_effort :
    ∀ (env : CleanupEnv) (s3_uri model_id : String),
      AwsCall.deleteRolePolicy ∈ cleanupTrace env s3_uri model_id ∧
      AwsCall.deleteModel ∈ cleanupTrace env s3_uri model_id ∧
      (cleanupMsgs env s3_uri model_id).length = 3 ∧
      Option.elim (cleanup_s3_keyroot s3_uri model_id) True
        (fun p => AwsCall.listAndDeleteObjects p ∈ cleanupTrace env s3_uri model_id) ∧
      cleanup_aws_resources ⟨false, false, true, true⟩ "my-bucket/pre" "m"
        = ([.deleteRolePolicy, .deleteModel, .listAndDeleteObjects "pre/models/m"],
           ["Unable to delete role: e", "Deleted Bedrock custom model.",
            "Deleted S3 prefix with model files."]) := by
  intro env uri id
  refine ⟨?_, ?_, ?_, ?_, by decide⟩ <;>
  · rcases env with ⟨p, r, m, o⟩
    cases h : cleanup_s3_keyroot uri id <;>
      cases p <;> cases r <;> cases m <;> cases o <;>
        simp [cleanupTrace, cleanupMsgs, cleanup_aws_resources, h]

/-- C9 counterexample: for the identifier `"abc/"` (which contains `/`, a
character outside `[-a-zA-Z0-9]`), staging writes the object key
`config.json` under the root `pre/models/abc-`, while cleanup's normalized
delete root is `pre/models/abc` - a string prefix of that key, so
`cleanup_aws_resources` does delete the objects staging wrote, contrary to
the claim's final clause. -/
theorem c9_counterexample_cleanup_deletes_staged :
    sanitize_model_id "abc/" ≠ "abc/" ∧
    (import_model_to_bedrock probe404 ["config.json"] .resourceNotFound pollDone
        "abc/" "my-bucket/pre").1
      = .ok ⟨["config.json"], ["pre/models/abc-/config.json"],
             "s3://my-bucket/pre/models/abc-", false⟩ ∧
    cleanup_s3_keyroot "my-bucket/pre" "abc/" = some "pre/models/abc" ∧
    keyUnder "pre/models/abc".data "pre/models/abc-/config.json".data = true :=
  ⟨by decide, by decide, by decide, by decide⟩

/-- C9 amended: for destination `my-bucket/pre`, the key root cleanup deletes
equals the key root staging writes under if and only if the identifier is a
fixed point of `sanitize_model_id`; for `"org/name"` the two roots differ and
the delete root is not a prefix of the staged keys, but this does not extend
to every identifier with a disallowed character (e.g. `"abc/"`, where
normalization makes the delete root a strict prefix of the staged keys). -/
theorem c9_amended_roundtrip :
    (∀ id : String,
        cleanup_s3_keyroot "my-bucket/pre" id = stagedKeyRoot "my-bucket/pre" id
          ↔ sanitize_model_id id = id) ∧
    cleanup_s3_keyroot "my-bucket/pre" "org/name" = some "pre/models/org/name" ∧
    stagedKeyRoot "my-bucket/pre" "org/name" = some "pre/models/org-name" ∧
    keyUnder "pre/models/org/name".data "pre/models/org-name/config.json".data = false := by
  refine ⟨?_, by decide, by decide, by decide⟩
  intro id
  by_cases hid : id = ""
  · subst hid
    constructor
    · intro _; rfl
    · intro _; decide
  · rw [cleanup_keyroot_eq id, stagedKeyRoot_eq id hid]
    constructor
    · intro h
      have h1 : normpath ("pre/models/" ++ id) = "pre/models/" ++ sanitize_model_id id :=
        Option.some.inj h
      have h2 : normpathChars ("pre/models/" ++ id).data
          = ("pre/models/" ++ sanitize_model_id id).data := congrArg String.data h1
      rw [data_append, data_append] at h2
      have hne : "pre/models/".data ++ id.data ≠ [] := by simp
      have hs0 : initialSlashes ("pre/models/".data ++ id.data) = 0 := rfl
      obtain ⟨hle, heq⟩ := normpathChars_le _ hne hs0
      have hlen : (normpathChars ("pre/models/".data ++ id.data)).length
          = ("pre/models/".data ++ id.data).length := by
        rw [h2]
        show _ = ("pre/models/".data ++ id.data).length
        simp [List.length_append, sanitize_model_id, List.length_map]
      have hidfix : "pre/models/".data ++ id.data
          = "pre/models/".data ++ (sanitize_model_id id).data :=
        (heq hlen).symm.trans h2
      have hd := List.append_cancel_left hidfix
      exact string_data_ext hd.symm
    · intro hfix
      have hall : ∀ c ∈ id.data, isAllowedChar c = true :=
        map_sanitizeChar_fixed id.data (congrArg String.data hfix)
      obtain ⟨hslash, hnd, hndd⟩ := sanitized_clean id.data hall
      have hdne : id.data ≠ [] := fun hh => hid (string_data_ext hh)
      have hshape : ("pre/models/" ++ id).data
          = "pre".data ++ '/' :: ("models".data ++ '/' :: id.data) := by
        simp [data_append, List.append_assoc]
      have hsplit : pySplitChar '/' ("pre/models/" ++ id).data
          = ["pre".data, "models".data, id.data] := by
        rw [hshape, pySplitChar_append '/' _ _ (by decide),
          pySplitChar_append '/' _ _ (by decide), pySplitChar_of_not_mem '/' _ hslash]
      have hne0 : ("pre/models/" ++ id).data ≠ [] := by rw [hshape]; simp
      have hnorm : normpathChars ("pre/models/" ++ id).data
          = ("pre/models/" ++ id).data := by
        apply normpathChars_clean _ hne0
        · rw [data_append]; rfl
        · rw [hsplit]
          intro c hc
          simp only [List.mem_cons, List.not_mem_nil, or_false] at hc
          rcases hc with rfl | rfl | rfl
          · exact ⟨by decide, by decide, by decide⟩
          · exact ⟨by decide, by decide, by decide⟩
          · exact ⟨hdne, hnd, hndd⟩
      rw [hfix]
      exact congrArg some (string_data_ext hnorm)

/-- C10: every client error from the destination-model lookup - not only
resource-not-found - is treated as "model does not exist": the controller
submits exactly one import job and never propagates the lookup failure. -/
theorem c10_lookup_client_errors_treated_as_absent :
    ∀ (code : String) (poll : Nat → JobStatusResponse),
      ((create_bedrock_model (.clientError code) poll).jobsSubmitted = 1 ∧
       (create_bedrock_model (.clientError code) poll).result ≠ .lookupRaised) ∧
      (create_bedrock_model .resourceNotFound poll).jobsSubmitted = 1 :=
  fun code poll =>
    ⟨(create_bedrock_model_after_pass _ poll (.inr ⟨code, rfl⟩)).2,
     (create_bedrock_model_after_pass _ poll (.inl rfl)).2.1⟩
